import Mathlib

/-!
Shallow embedding of `src/app2.py` (a Streamlit inflation dashboard) and
verification of its natural-language specification.

Modelling conventions:
* A pandas `DataFrame` row is a `Row`; a table is a `List Row` in row order.
* Nullable float columns (`NaN` cells) are `Option ℚ`; pandas skips nulls in
  `max`/`min`/`mean`, which the `series*` functions below mirror.
* A CSV file is a `List (List String)` — a header row of cells followed by data
  rows of cells.  The comma/newline layer itself is one of the opaque CSV
  primitives the design document puts out of scope, so fields arrive already
  split.
* Fallible pandas operations (`.values[0]` on an empty selection,
  `int(...)` of NaN) are modelled with `Except String` / `Option`.
-/

namespace Inflation

/-- A calendar date as parsed from the CSV `Date` column (timestamps in this
data set are all midnight, so no time-of-day component is modelled). -/
structure Date where
  year : ℕ
  month : ℕ
  day : ℕ
deriving DecidableEq

/-- Chronological comparison of dates (lexicographic on year, month, day);
this is the order pandas uses for a parsed datetime column. -/
def dateLE (a b : Date) : Bool :=
  decide (a.year < b.year) ||
    (decide (a.year = b.year) &&
      (decide (a.month < b.month) ||
        (decide (a.month = b.month) && decide (a.day ≤ b.day))))

/-- One row of the loaded table: the four input columns plus the three
columns derived by `load_data` (lines 23–25 of `src/app2.py`). -/
structure Row where
  date : Date
  inflationRate : Option ℚ
  forecastInflation : Option ℚ
  rollingAvgInflation : Option ℚ
  year : ℕ
  month : String
  inflationCombined : Option ℚ
deriving DecidableEq

/-- Combine one nullable entry with a running maximum, skipping nulls. -/
def optMax : Option ℚ → Option ℚ → Option ℚ
  | none, m => m
  | some v, none => some v
  | some v, some m => some (max v m)

/-- Combine one nullable entry with a running minimum, skipping nulls. -/
def optMin : Option ℚ → Option ℚ → Option ℚ
  | none, m => m
  | some v, none => some v
  | some v, some m => some (min v m)

/-- `Series.max()` over a nullable column: pandas skips nulls and returns
NaN (here `none`) when every entry is null. -/
def seriesMax : List (Option ℚ) → Option ℚ
  | [] => none
  | x :: rest => optMax x (seriesMax rest)

/-- `Series.min()` over a nullable column, nulls skipped. -/
def seriesMin : List (Option ℚ) → Option ℚ
  | [] => none
  | x :: rest => optMin x (seriesMin rest)

/-- `Series.mean()` over a nullable column: arithmetic mean of the non-null
entries, NaN (here `none`) when there are none. -/
def seriesMean (xs : List (Option ℚ)) : Option ℚ :=
  let vs := xs.reduceOption
  if vs.length = 0 then none else some (vs.sum / (vs.length : ℚ))

/-- Combine one date with a running chronological minimum. -/
def dateMinStep (d : Date) : Option Date → Date
  | none => d
  | some m => if dateLE d m then d else m

/-- `Series.min()` over a datetime column, in chronological order. -/
def dateMin : List Date → Option Date
  | [] => none
  | d :: ds => some (dateMinStep d (dateMin ds))

/-- Little-endian base-10 digits with explicit fuel (structural recursion, so
concrete values reduce in the kernel); agrees with `Nat.digits 10` when the
fuel is at least `n`. -/
def natDigitsAux : ℕ → ℕ → List ℕ
  | 0, _ => []
  | _ + 1, 0 => []
  | fuel + 1, n + 1 => (n + 1) % 10 :: natDigitsAux fuel ((n + 1) / 10)

/-- Little-endian base-10 digits of `n`. -/
def natDigitsLE (n : ℕ) : List ℕ := natDigitsAux n n

/-- The decimal digit characters of a natural number, most significant first,
exactly as pandas writes integer cells. -/
def natRenderChars (n : ℕ) : List Char :=
  if n = 0 then ['0'] else (natDigitsLE n).reverse.map Nat.digitChar

/-- Decimal string of a natural number. -/
def natStr (n : ℕ) : String := ⟨natRenderChars n⟩

/-- Is the character one of `'0'`–`'9'`? -/
def isDigitChar (c : Char) : Bool := decide (48 ≤ c.toNat) && decide (c.toNat ≤ 57)

/-- Numeric value of a digit character. -/
def charVal (c : Char) : ℕ := c.toNat - 48

/-- Parse a non-empty all-digit character run as a natural number. -/
def parseNatChars (cs : List Char) : Option ℕ :=
  if cs ≠ [] ∧ cs.all isDigitChar = true then
    some (cs.foldl (fun a c => a * 10 + charVal c) 0)
  else none

/-- Prepend a character to the first piece of a split. -/
def consHead (c : Char) : List (List Char) → List (List Char)
  | [] => [[c]]
  | p :: ps => (c :: p) :: ps

/-- Split a character list on a separator character (the pieces between
occurrences of `sep`, like `str.split`). -/
def splitOnChar (sep : Char) : List Char → List (List Char)
  | [] => [[]]
  | c :: cs =>
    if c = sep then [] :: splitOnChar sep cs
    else consHead c (splitOnChar sep cs)

/-- Fuel-based multiplicity: with enough fuel, the largest `k` with
`p ^ k ∣ n` (for `2 ≤ p`, `0 < n`); structural so the kernel can evaluate. -/
def pMultAux : ℕ → ℕ → ℕ → ℕ
  | 0, _, _ => 0
  | fuel + 1, p, n =>
    if 2 ≤ p ∧ 0 < n ∧ n % p = 0 then pMultAux fuel p (n / p) + 1 else 0

/-- Multiplicity of `p` in `n`. -/
def pMult (p n : ℕ) : ℕ := pMultAux n p n

/-- Number of digits printed after the decimal point for the value `q`: the
smallest scale whose power of ten clears the denominator, but at least one
digit (floats print as `5.0`, never `5`). -/
def decScale (q : ℚ) : ℕ := max 1 (max (pMult 2 q.den) (pMult 5 q.den))

/-- `k`-digit zero-padded decimal rendering of `f` (for `f < 10 ^ k`). -/
def padRender (k f : ℕ) : List Char :=
  List.replicate (k - (natRenderChars f).length) '0' ++ natRenderChars f

/-- The natural number `q * 10 ^ k`, for a non-negative `q` whose denominator
divides `10 ^ k`, computed directly on the numerator and denominator. -/
def scaleNum (q : ℚ) (k : ℕ) : ℕ := q.num.toNat * (10 ^ k / q.den)

/-- Decimal character rendering of a non-negative rational whose denominator
is a power of ten.  Every float pandas serializes is such a value (floats are
dyadic rationals and print exactly); other rationals never reach this
function, and fall back to a placeholder. -/
def renderPosDec (q : ℚ) : List Char :=
  if q.den ∣ 10 ^ decScale q then
    natRenderChars (scaleNum q (decScale q) / 10 ^ decScale q) ++
      '.' :: padRender (decScale q) (scaleNum q (decScale q) % 10 ^ decScale q)
  else ['?']

/-- Decimal character rendering of a rational, sign included. -/
def renderDecChars (q : ℚ) : List Char :=
  if q < 0 then '-' :: renderPosDec (-q) else renderPosDec q

/-- `to_csv` writes a null float cell as the empty field. -/
def renderOpt : Option ℚ → String
  | none => ""
  | some q => ⟨renderDecChars q⟩

/-- Parse an unsigned decimal numeral (`"12"` or `"12.25"`); the value of
`ip.fp` with `k` fractional digits is `(ip * 10 ^ k + fp) / 10 ^ k`. -/
def parsePosDec (cs : List Char) : Option ℚ :=
  match splitOnChar '.' cs with
  | [ip] =>
    match parseNatChars ip with
    | some n => some ((n : ℕ) : ℚ)
    | none => none
  | [ip, fp] =>
    match parseNatChars ip, parseNatChars fp with
    | some n, some f =>
      some (Rat.divInt ((n * 10 ^ fp.length + f : ℕ) : ℤ) ((10 ^ fp.length : ℕ) : ℤ))
    | _, _ => none
  | _ => none

/-- Parse a signed decimal numeral. -/
def parseDecChars (cs : List Char) : Option ℚ :=
  if cs.head? = some '-' then
    match parsePosDec cs.tail with
    | some w => some (-w)
    | none => none
  else parsePosDec cs

/-- `read_csv`'s reading of a nullable numeric field: the empty field is NaN
(`none`), otherwise the field must be a decimal numeral. -/
def parseField (s : String) : Option (Option ℚ) :=
  if s.data = [] then some none
  else
    match parseDecChars s.data with
    | some w => some (some w)
    | none => none

/-- ISO rendering `YYYY-MM-DD`, the form `to_csv` writes for a parsed
datetime column whose times are all midnight. -/
def renderDate (d : Date) : String :=
  ⟨padRender 4 d.year ++ '-' :: (padRender 2 d.month ++ '-' :: padRender 2 d.day)⟩

/-- Parse an ISO `YYYY-MM-DD` date with valid month and day fields (the
date-parsing primitive of the loader). -/
def parseDate (s : String) : Option Date :=
  match splitOnChar '-' s.data with
  | [ys, ms, ds] =>
    match parseNatChars ys, parseNatChars ms, parseNatChars ds with
    | some y, some m, some d =>
      if 1 ≤ m ∧ m ≤ 12 ∧ 1 ≤ d ∧ d ≤ 31 then some ⟨y, m, d⟩ else none
    | _, _, _ => none
  | _ => none

/-- `strftime('%b')`: the fixed three-letter month tokens (C locale). -/
def monthAbbrev : ℕ → String
  | 1 => "Jan" | 2 => "Feb" | 3 => "Mar" | 4 => "Apr" | 5 => "May" | 6 => "Jun"
  | 7 => "Jul" | 8 => "Aug" | 9 => "Sep" | 10 => "Oct" | 11 => "Nov" | 12 => "Dec"
  | _ => ""

/-- `strftime('%B')`: the full month names (C locale). -/
def monthNameFull : ℕ → String
  | 1 => "January" | 2 => "February" | 3 => "March" | 4 => "April"
  | 5 => "May" | 6 => "June" | 7 => "July" | 8 => "August"
  | 9 => "September" | 10 => "October" | 11 => "November" | 12 => "December"
  | _ => ""

/-- The canonical month order used to reindex the heatmap
(src/app2.py lines 179-181). -/
def all_months : List String :=
  ["Jan", "Feb", "Mar", "Apr", "May", "Jun",
   "Jul", "Aug", "Sep", "Oct", "Nov", "Dec"]

/-- `strftime("%B %Y")`, the "Month Year" form of the stats cards. -/
def formatMonthYear (d : Date) : String :=
  monthNameFull d.month ++ " " ++ natStr d.year

/-- `".1f"`-style formatting used by the heatmap annotations: the value
rounded to one decimal place.  (The library formats the underlying binary
float; which way exact halves round is immaterial to the claims.) -/
def fmt1 (q : ℚ) : String :=
  if round (q * 10) < 0 then
    "-" ++ natStr ((-round (q * 10)).toNat / 10) ++ "." ++
      natStr ((-round (q * 10)).toNat % 10)
  else
    natStr ((round (q * 10)).toNat / 10) ++ "." ++
      natStr ((round (q * 10)).toNat % 10)

/-- The four column names the input CSV must provide. -/
def inputCols : List String :=
  ["Date", "Inflation Rate", "Forecast_Inflation", "Rolling_Avg_Inflation"]

/-- `fillna`: left value where present, otherwise the right value. -/
def coalesce (a b : Option ℚ) : Option ℚ :=
  match a with
  | some v => some v
  | none => b

/-- Build one augmented row from the cells of one CSV data row, given the
column positions of the four input columns.  Mirrors lines 20-25 of
`src/app2.py`: parse the date, then derive `Year` (`dt.year`), `Month`
(`strftime('%b')`) and `Inflation_Combined` (`fillna`). -/
def loadRow (di ri fi oi : ℕ) (cells : List String) : Option Row :=
  match cells[di]?, cells[ri]?, cells[fi]?, cells[oi]? with
  | some dc, some rc, some fc, some oc =>
    match parseDate dc, parseField rc, parseField fc, parseField oc with
    | some d, some r, some f, some o =>
      some { date := d, inflationRate := r, forecastInflation := f,
             rollingAvgInflation := o,
             year := d.year,
             month := monthAbbrev d.month,
             inflationCombined := coalesce r f }
    | _, _, _, _ => none
  | _, _, _, _ => none

/-- Collect parsed rows; any bad row fails the whole load. -/
def consRows (r : Option Row) (rs : Option (List Row)) : Option (List Row) :=
  match r, rs with
  | some r, some rs => some (r :: rs)
  | _, _ => none

/-- Parse every data row of the upload. -/
def loadRows (di ri fi oi : ℕ) : List (List String) → Option (List Row)
  | [] => some []
  | c :: cs => consRows (loadRow di ri fi oi c) (loadRows di ri fi oi cs)

/-- `load_data` (src/app2.py lines 17-29): read the uploaded CSV with the
`Date` column parsed as dates, derive `Year`, `Month` and
`Inflation_Combined`, and return the augmented table.  Any failure —
unreadable file, a required column missing, an unparsable date — is caught
by the surrounding `try`, reported via `st.error`, and surfaces to the
caller as the `None` sentinel. -/
def load_data (csv : List (List String)) : Option (List Row) :=
  match csv with
  | [] => none
  | header :: dataRows =>
    match header.findIdx? (fun c => c == "Date"),
          header.findIdx? (fun c => c == "Inflation Rate"),
          header.findIdx? (fun c => c == "Forecast_Inflation"),
          header.findIdx? (fun c => c == "Rolling_Avg_Inflation") with
    | some di, some ri, some fi, some oi => loadRows di ri fi oi dataRows
    | _, _, _, _ => none

/-- Line 58: `filtered_df = df[(df["Year"] >= year_range[0]) & (df["Year"] <= year_range[1])]`. -/
def filtered_df (df : List Row) (y0 y1 : ℕ) : List Row :=
  df.filter (fun r => decide (y0 ≤ r.year) && decide (r.year ≤ y1))

/-- The three metric cards of the summary-stats panel. -/
structure Stats where
  max_inflation_value : ℚ
  min_inflation_value : ℚ
  max_inflation_date : String
  min_inflation_date : String
  avg_forecast : Option ℚ
deriving DecidableEq

/-- The summary-stats block (src/app2.py lines 63-74).
`df["Inflation Rate"].max()` skips nulls (NaN when all are null);
`df[df["Inflation Rate"] == v]["Date"].values[0]` takes the first row whose
rate equals `v` and raises `IndexError` when no row matches — and no row
ever compares equal to NaN.  `avg_forecast` is `mean()` over the entire
unfiltered table. -/
def computeStats (df : List Row) : Except String Stats :=
  match seriesMax (df.map (fun r => r.inflationRate)),
        seriesMin (df.map (fun r => r.inflationRate)) with
  | some maxv, some minv =>
    match (df.filter (fun r => decide (r.inflationRate = some maxv))).head?,
          (df.filter (fun r => decide (r.inflationRate = some minv))).head? with
    | some rmax, some rmin =>
      Except.ok
        { max_inflation_value := maxv
          min_inflation_value := minv
          max_inflation_date := formatMonthYear rmax.date
          min_inflation_date := formatMonthYear rmin.date
          avg_forecast := seriesMean (df.map (fun r => r.forecastInflation)) }
    | _, _ => Except.error "IndexError: index 0 is out of bounds for axis 0 with size 0"
  | _, _ => Except.error "IndexError: index 0 is out of bounds for axis 0 with size 0"

/-- Line 121: `forecast_start = df[df['Inflation Rate'].isna()]['Date'].min()`,
computed on the unfiltered table. -/
def forecast_start (df : List Row) : Option Date :=
  dateMin ((df.filter (fun r => r.inflationRate.isNone)).map (fun r => r.date))

/-- The payload of the line-charts mode (src/app2.py lines 124-171): the
combined series over the filtered range with an optional forecast-start
marker (drawn only when `pd.notna(forecast_start)`), the rolling-average
series over the filtered range, and the actual-vs-forecast comparison over
the entire unfiltered table. -/
structure LineCharts where
  points : List (Date × Option ℚ)
  marker : Option Date
  markerLabel : Option String
  rollingPoints : List (Date × Option ℚ)
  comparePoints : List (Date × Option ℚ × Option ℚ)

/-- Render the line-charts mode from the full and the filtered table. -/
def lineChartsView (df filtered : List Row) : LineCharts :=
  { points := filtered.map (fun r => (r.date, r.inflationCombined))
    marker := forecast_start df
    markerLabel := (forecast_start df).map
      (fun d => "Forecast Starts (" ++ natStr d.year ++ ")")
    rollingPoints := filtered.map (fun r => (r.date, r.rollingAvgInflation))
    comparePoints := df.map (fun r => (r.date, r.inflationRate, r.forecastInflation)) }

/-- One cell of `pivot_table(index='Month', columns='Year',
values='Inflation_Combined')`: the default `aggfunc` is the mean over the
non-null values of the matching rows, NaN when there are none. -/
def pivotCell (filtered : List Row) (m : String) (y : ℕ) : Option ℚ :=
  seriesMean ((filtered.filter
    (fun r => decide (r.month = m) && decide (r.year = y))).map
      (fun r => r.inflationCombined))

/-- Insert into a sorted list of years. -/
def insertSorted (y : ℕ) : List ℕ → List ℕ
  | [] => [y]
  | x :: xs => if y ≤ x then y :: x :: xs else x :: insertSorted y xs

/-- Ascending sort (how `pivot_table` orders its columns). -/
def sortNat (l : List ℕ) : List ℕ := l.foldr insertSorted []

/-- The year columns of the pivot: the distinct years present, ascending. -/
def yearCols (filtered : List Row) : List ℕ :=
  sortNat ((filtered.map (fun r => r.year)).dedup)

/-- The heatmap payload (src/app2.py lines 176-186): the pivoted grid after
`reindex(all_months)`, with seaborn's `annot=True, fmt=".1f"` cell texts —
a NaN cell gets no annotation. -/
structure Heatmap where
  rowLabels : List String
  colLabels : List ℕ
  cell : String → ℕ → Option ℚ
  cellText : String → ℕ → String

/-- Render the heatmap mode from the filtered table. -/
def heatmapView (filtered : List Row) : Heatmap :=
  { rowLabels := all_months
    colLabels := yearCols filtered
    cell := fun m y => pivotCell filtered m y
    cellText := fun m y =>
      match pivotCell filtered m y with
      | none => ""
      | some v => fmt1 v }

/-- The exported header: the four input columns plus the three derived ones,
in DataFrame column order (`index=False` adds no index column). -/
def csvHeader : List String := inputCols ++ ["Year", "Month", "Inflation_Combined"]

/-- Serialize one row into its seven CSV cells. -/
def rowToCells (r : Row) : List String :=
  [renderDate r.date, renderOpt r.inflationRate, renderOpt r.forecastInflation,
   renderOpt r.rollingAvgInflation, natStr r.year, r.month,
   renderOpt r.inflationCombined]

/-- `filtered_df.to_csv(index=False)` (line 192): header row then one row of
cells per table row, no index column. -/
def to_csv (df : List Row) : List (List String) :=
  csvHeader :: df.map rowToCells

/-- The download offered by raw-data mode (line 193). -/
structure Download where
  label : String
  content : List (List String)
  filename : String
  mime : String
deriving DecidableEq

/-- Render the raw-data mode: show the filtered table and offer its CSV. -/
def rawDataView (filtered : List Row) : Download :=
  { label := "Download Filtered CSV"
    content := to_csv filtered
    filename := "filtered_inflation.csv"
    mime := "text/csv" }

/-- Read back one exported data row. -/
def parseRowCells (cells : List String) : Option Row :=
  match cells with
  | [dc, rc, fc, oc, yc, mc, cc] =>
    match parseDate dc, parseField rc, parseField fc, parseField oc,
          parseNatChars yc.data, parseField cc with
    | some d, some r, some f, some o, some y, some c =>
      some { date := d, inflationRate := r, forecastInflation := f,
             rollingAvgInflation := o, year := y, month := mc,
             inflationCombined := c }
    | _, _, _, _, _, _ => none
  | _ => none

/-- Read back the exported data rows. -/
def parseRows : List (List String) → Option (List Row)
  | [] => some []
  | c :: cs => consRows (parseRowCells c) (parseRows cs)

/-- Modelled from the spec: re-parsing the exported CSV (the round-trip
property of §8).  The repository itself contains no reader for the exported
seven-column file, so this is the evident reader for that schema: check the
header, then decode each data row's date, nullable numerics, year and month
token. -/
def parseCsv (file : List (List String)) : Option (List Row) :=
  match file with
  | header :: dataRows => if header = csvHeader then parseRows dataRows else none
  | [] => none

/-- The three-way view selector (line 54). -/
inductive ChartType where
  | lineCharts
  | heatmap
  | rawData
deriving DecidableEq

/-- A rendered view payload. -/
inductive View where
  | line : LineCharts → View
  | heat : Heatmap → View
  | raw : Download → View

/-- What one dashboard run shows. -/
structure Output where
  errorMsg : Option String
  stats : Option Stats
  view : Option View

/-- Render the selected mode from the full and the filtered table
(lines 124-193). -/
def renderView (ct : ChartType) (df filtered : List Row) : View :=
  match ct with
  | ChartType.lineCharts => View.line (lineChartsView df filtered)
  | ChartType.heatmap => View.heat (heatmapView filtered)
  | ChartType.rawData => View.raw (rawDataView filtered)

/-- One full dashboard run for an uploaded file (lines 47-193).  On a load
failure an error message is shown and nothing is rendered (the `if df is not
None:` guard).  On success the year slider is built — `int(df['Year'].min())`
raises `ValueError` on a zero-row table — then the summary stats (which can
raise `IndexError`, see `computeStats`) when enabled, then the selected
view over the filtered table.  An uncaught exception is `Except.error`. -/
def appRun (csv : List (List String)) (yearRange : ℕ × ℕ)
    (chartType : ChartType) (showStats : Bool) : Except String Output :=
  match load_data csv with
  | none => Except.ok { errorMsg := some "Error loading data", stats := none, view := none }
  | some df =>
    match (df.map (fun r => r.year)).min?, (df.map (fun r => r.year)).max? with
    | some _, some _ =>
      if showStats then
        match computeStats df with
        | Except.error e => Except.error e
        | Except.ok s =>
          Except.ok { errorMsg := none, stats := some s,
                      view := some (renderView chartType df
                        (filtered_df df yearRange.1 yearRange.2)) }
      else
        Except.ok { errorMsg := none, stats := none,
                    view := some (renderView chartType df
                      (filtered_df df yearRange.1 yearRange.2)) }
    | _, _ => Except.error "ValueError: cannot convert float NaN to integer"

/-- An upload whose `Inflation Rate` column is entirely null: a single
forecast-only row. -/
def c1Csv : List (List String) :=
  [inputCols, ["2025-01-01", "", "4.0", ""]]

/-- The table `load_data` produces for `c1Csv`. -/
def c1Table : List Row :=
  [{ date := ⟨2025, 1, 1⟩, inflationRate := none, forecastInflation := some 4,
     rollingAvgInflation := none, year := 2025, month := "Jan",
     inflationCombined := some 4 }]

/-- A small demonstration upload: two historical rows and one forecast row. -/
def demoCsv : List (List String) :=
  [inputCols,
   ["2024-11-01", "3.25", "", ""],
   ["2024-12-01", "5.5", "", "5.2"],
   ["2025-01-01", "", "4.0", ""]]

/-- The November 2024 row of the demonstration table. -/
def demoRowNov : Row :=
  { date := ⟨2024, 11, 1⟩, inflationRate := some (Rat.divInt 13 4),
    forecastInflation := none, rollingAvgInflation := none,
    year := 2024, month := "Nov", inflationCombined := some (Rat.divInt 13 4) }

/-- The December 2024 row of the demonstration table. -/
def demoRowDec : Row :=
  { date := ⟨2024, 12, 1⟩, inflationRate := some (Rat.divInt 11 2),
    forecastInflation := none, rollingAvgInflation := some (Rat.divInt 26 5),
    year := 2024, month := "Dec", inflationCombined := some (Rat.divInt 11 2) }

/-- The January 2025 (forecast-only) row of the demonstration table. -/
def demoRowJan : Row :=
  { date := ⟨2025, 1, 1⟩, inflationRate := none, forecastInflation := some 4,
    rollingAvgInflation := none, year := 2025, month := "Jan",
    inflationCombined := some 4 }

/-- The table `load_data` produces for `demoCsv`. -/
def demoTable : List Row := [demoRowNov, demoRowDec, demoRowJan]

/-- An upload with no `Date` column at all. -/
def badCsv : List (List String) := [["Datum", "Inflation Rate"], ["x", "y"]]

/-- A nullable cell all of whose contents are decimal rationals (denominator
dividing a power of ten) — every numeric value `read_csv` produces is such,
floats being dyadic. -/
def DecimalVal : Option ℚ → Prop :=
  fun o => ∀ q : ℚ, o = some q → ∃ j, q.den ∣ 10 ^ j

/-- The invariant `load_data` guarantees of every row it emits: calendar
bounds on the parsed date, and decimal values in every numeric column. -/
def RowWF (r : Row) : Prop :=
  1 ≤ r.date.month ∧ r.date.month ≤ 12 ∧ 1 ≤ r.date.day ∧ r.date.day ≤ 31 ∧
  DecimalVal r.inflationRate ∧ DecimalVal r.forecastInflation ∧
  DecimalVal r.rollingAvgInflation ∧ DecimalVal r.inflationCombined

end Inflation

namespace Inflation

theorem dateLE_refl (a : Date) : dateLE a a = true := by
  simp [dateLE]

theorem dateLE_total (a b : Date) : dateLE a b = true ∨ dateLE b a = true := by
  simp only [dateLE, Bool.or_eq_true, Bool.and_eq_true, decide_eq_true_eq]
  omega

theorem dateLE_trans {a b c : Date} (hab : dateLE a b = true)
    (hbc : dateLE b c = true) : dateLE a c = true := by
  simp only [dateLE, Bool.or_eq_true, Bool.and_eq_true, decide_eq_true_eq] at *
  omega

theorem seriesMax_eq_none {xs : List (Option ℚ)} (h : seriesMax xs = none) :
    ∀ q : ℚ, some q ∉ xs := by
  induction xs with
  | nil => simp
  | cons x rest ih =>
    intro q hq
    cases x with
    | none =>
      simp only [seriesMax, optMax] at h
      rcases List.mem_cons.mp hq with hq | hq
      · exact Option.noConfusion hq
      · exact ih h q hq
    | some w =>
      cases hrest : seriesMax rest <;> simp [seriesMax, optMax, hrest] at h

theorem seriesMax_le {xs : List (Option ℚ)} {v : ℚ} (h : seriesMax xs = some v) :
    ∀ q : ℚ, some q ∈ xs → q ≤ v := by
  induction xs generalizing v with
  | nil => simp [seriesMax] at h
  | cons x rest ih =>
    intro q hq
    cases x with
    | none =>
      simp only [seriesMax, optMax] at h
      rcases List.mem_cons.mp hq with hq | hq
      · exact Option.noConfusion hq
      · exact ih h q hq
    | some w =>
      cases hrest : seriesMax rest with
      | none =>
        simp only [seriesMax, optMax, hrest, Option.some.injEq] at h
        rcases List.mem_cons.mp hq with hq | hq
        · cases hq; cases h; exact le_refl _
        · exact absurd hq (seriesMax_eq_none hrest q)
      | some m =>
        simp only [seriesMax, optMax, hrest, Option.some.injEq] at h
        rcases List.mem_cons.mp hq with hq | hq
        · cases hq; rw [← h]; exact le_max_left _ _
        · rw [← h]; exact le_trans (ih hrest q hq) (le_max_right _ _)

theorem seriesMax_mem {xs : List (Option ℚ)} {v : ℚ} (h : seriesMax xs = some v) :
    some v ∈ xs := by
  induction xs generalizing v with
  | nil => simp [seriesMax] at h
  | cons x rest ih =>
    cases x with
    | none =>
      simp only [seriesMax, optMax] at h
      exact List.mem_cons_of_mem _ (ih h)
    | some w =>
      cases hrest : seriesMax rest with
      | none =>
        simp only [seriesMax, optMax, hrest, Option.some.injEq] at h
        rw [← h]
        exact List.mem_cons_self _ _
      | some m =>
        simp only [seriesMax, optMax, hrest, Option.some.injEq] at h
        rcases max_cases w m with ⟨he, _⟩ | ⟨he, _⟩ <;> rw [← h, he]
        · exact List.mem_cons_self _ _
        · exact List.mem_cons_of_mem _ (ih hrest)

theorem seriesMax_isSome {xs : List (Option ℚ)} {q : ℚ} (h : some q ∈ xs) :
    ∃ v, seriesMax xs = some v := by
  cases hm : seriesMax xs with
  | none => exact absurd h (seriesMax_eq_none hm q)
  | some v => exact ⟨v, rfl⟩

theorem seriesMin_eq_none {xs : List (Option ℚ)} (h : seriesMin xs = none) :
    ∀ q : ℚ, some q ∉ xs := by
  induction xs with
  | nil => simp
  | cons x rest ih =>
    intro q hq
    cases x with
    | none =>
      simp only [seriesMin, optMin] at h
      rcases List.mem_cons.mp hq with hq | hq
      · exact Option.noConfusion hq
      · exact ih h q hq
    | some w =>
      cases hrest : seriesMin rest <;> simp [seriesMin, optMin, hrest] at h

theorem seriesMin_le {xs : List (Option ℚ)} {v : ℚ} (h : seriesMin xs = some v) :
    ∀ q : ℚ, some q ∈ xs → v ≤ q := by
  induction xs generalizing v with
  | nil => simp [seriesMin] at h
  | cons x rest ih =>
    intro q hq
    cases x with
    | none =>
      simp only [seriesMin, optMin] at h
      rcases List.mem_cons.mp hq with hq | hq
      · exact Option.noConfusion hq
      · exact ih h q hq
    | some w =>
      cases hrest : seriesMin rest with
      | none =>
        simp only [seriesMin, optMin, hrest, Option.some.injEq] at h
        rcases List.mem_cons.mp hq with hq | hq
        · cases hq; cases h; exact le_refl _
        · exact absurd hq (seriesMin_eq_none hrest q)
      | some m =>
        simp only [seriesMin, optMin, hrest, Option.some.injEq] at h
        rcases List.mem_cons.mp hq with hq | hq
        · cases hq; rw [← h]; exact min_le_left _ _
        · rw [← h]; exact le_trans (min_le_right _ _) (ih hrest q hq)

theorem seriesMin_mem {xs : List (Option ℚ)} {v : ℚ} (h : seriesMin xs = some v) :
    some v ∈ xs := by
  induction xs generalizing v with
  | nil => simp [seriesMin] at h
  | cons x rest ih =>
    cases x with
    | none =>
      simp only [seriesMin, optMin] at h
      exact List.mem_cons_of_mem _ (ih h)
    | some w =>
      cases hrest : seriesMin rest with
      | none =>
        simp only [seriesMin, optMin, hrest, Option.some.injEq] at h
        rw [← h]
        exact List.mem_cons_self _ _
      | some m =>
        simp only [seriesMin, optMin, hrest, Option.some.injEq] at h
        rcases min_cases w m with ⟨he, _⟩ | ⟨he, _⟩ <;> rw [← h, he]
        · exact List.mem_cons_self _ _
        · exact List.mem_cons_of_mem _ (ih hrest)

theorem seriesMin_isSome {xs : List (Option ℚ)} {q : ℚ} (h : some q ∈ xs) :
    ∃ v, seriesMin xs = some v := by
  cases hm : seriesMin xs with
  | none => exact absurd h (seriesMin_eq_none hm q)
  | some v => exact ⟨v, rfl⟩

theorem dateMin_eq_none {ds : List Date} (h : dateMin ds = none) : ds = [] := by
  cases ds with
  | nil => rfl
  | cons x rest => simp [dateMin] at h

theorem dateMin_mem {ds : List Date} {d : Date} (h : dateMin ds = some d) :
    d ∈ ds := by
  induction ds generalizing d with
  | nil => simp [dateMin] at h
  | cons x rest ih =>
    cases hrest : dateMin rest with
    | none =>
      simp only [dateMin, hrest, dateMinStep, Option.some.injEq] at h
      rw [← h]
      exact List.mem_cons_self _ _
    | some m =>
      simp only [dateMin, hrest, dateMinStep, Option.some.injEq] at h
      by_cases hle : dateLE x m = true
      · rw [if_pos hle] at h; rw [← h]; exact List.mem_cons_self _ _
      · rw [if_neg hle] at h; rw [← h]; exact List.mem_cons_of_mem _ (ih hrest)

theorem dateMin_le {ds : List Date} {d : Date} (h : dateMin ds = some d) :
    ∀ x ∈ ds, dateLE d x = true := by
  induction ds generalizing d with
  | nil => simp [dateMin] at h
  | cons y rest ih =>
    intro x hx
    cases hrest : dateMin rest with
    | none =>
      simp only [dateMin, hrest, dateMinStep, Option.some.injEq] at h
      rcases List.mem_cons.mp hx with hx | hx
      · cases hx; rw [← h]; exact dateLE_refl _
      · rw [dateMin_eq_none hrest] at hx
        simp at hx
    | some m =>
      simp only [dateMin, hrest, dateMinStep, Option.some.injEq] at h
      by_cases hle : dateLE y m = true
      · rw [if_pos hle] at h
        rcases List.mem_cons.mp hx with hx | hx
        · cases hx; rw [← h]; exact dateLE_refl _
        · rw [← h]; exact dateLE_trans hle (ih hrest x hx)
      · rw [if_neg hle] at h
        rcases List.mem_cons.mp hx with hx | hx
        · subst hx
          rw [← h]
          rcases dateLE_total m x with hd | hd
          · exact hd
          · exact absurd hd hle
        · rw [← h]; exact ih hrest x hx

theorem head?_filter {α : Type} (p : α → Bool) (l : List α) :
    (l.filter p).head? = l.find? p := by
  induction l with
  | nil => rfl
  | cons x xs ih =>
    by_cases h : p x = true
    · rw [List.filter_cons_of_pos h, List.find?_cons_of_pos _ h]
      rfl
    · rw [List.filter_cons_of_neg (by simpa using h),
        List.find?_cons_of_neg _ (by simpa using h)]
      exact ih

/-- Claim C5: for every loaded table and inclusive bounds, the filter stage
returns exactly the subsequence of rows whose year lies within the bounds,
preserving original row order, and an empty result is valid: the downstream
renderers produce the empty line chart, the all-blank heatmap and the
header-only CSV rather than failing. -/
theorem claim_C5_filter_stage (df : List Row) (y0 y1 : ℕ) :
    List.Sublist (filtered_df df y0 y1) df ∧
    (∀ r, r ∈ filtered_df df y0 y1 ↔ r ∈ df ∧ y0 ≤ r.year ∧ r.year ≤ y1) ∧
    (filtered_df df y0 y1 = [] →
      (lineChartsView df []).points = [] ∧
      (∀ m y, (heatmapView []).cell m y = none) ∧
      (rawDataView []).content = [csvHeader]) := by
  refine ⟨List.filter_sublist _, ?_, ?_⟩
  · intro r
    rw [filtered_df, List.mem_filter]
    simp only [Bool.and_eq_true, decide_eq_true_eq]
  · intro _
    exact ⟨rfl, fun m y => rfl, rfl⟩

/-- Witness for C5 at a concrete table and row: the membership
characterisation at the 2025-only range, and the empty filter result
rendering an empty chart. -/
theorem claim_C5_filter_stage_witness :
    (demoRowJan ∈ filtered_df demoTable 2025 2025 ↔
      demoRowJan ∈ demoTable ∧ 2025 ≤ demoRowJan.year ∧ demoRowJan.year ≤ 2025) ∧
    (lineChartsView demoTable []).points = [] := by
  refine ⟨(claim_C5_filter_stage demoTable 2025 2025).2.1 demoRowJan, ?_⟩
  have h := (claim_C5_filter_stage demoTable 2030 2031).2.2
  exact (h (by decide)).1

/-- Claim C6: filtering by a range and then re-filtering the result by the
same range yields the same result — the filter stage is idempotent. -/
theorem claim_C6_filter_idempotent (df : List Row) (y0 y1 : ℕ) :
    filtered_df (filtered_df df y0 y1) y0 y1 = filtered_df df y0 y1 := by
  induction df with
  | nil => rfl
  | cons r rest ih =>
    simp only [filtered_df] at *
    simp only [List.filter_cons]
    by_cases h : (decide (y0 ≤ r.year) && decide (r.year ≤ y1)) = true
    · rw [if_pos h, List.filter_cons, if_pos h, ih]
    · rw [if_neg h]
      exact ih

/-- Claim C9: on a load failure the loader returns the `None` sentinel, the
app reports a visible error message without crashing the session, and does
not proceed to render (no stats, no view); in particular an upload whose
header lacks the `Date` column, or an unreadable (empty) file, fails the
load. -/
theorem claim_C9_load_failure (csv : List (List String)) (yr : ℕ × ℕ)
    (ct : ChartType) (ss : Bool) (h : load_data csv = none) :
    appRun csv yr ct ss =
      Except.ok { errorMsg := some "Error loading data", stats := none, view := none } ∧
    (∀ header rows, "Date" ∉ header → load_data (header :: rows) = none) ∧
    load_data [] = none := by
  refine ⟨?_, ?_, rfl⟩
  · rw [appRun, h]
  · intro header rows hd
    have hidx : header.findIdx? (fun c => c == "Date") = none := by
      rw [List.findIdx?_eq_none_iff]
      intro x hx
      simp only [beq_eq_false_iff_ne, ne_eq]
      intro hc
      exact hd (hc ▸ hx)
    rw [load_data, hidx]

/-- Witness for C9: a header without a `Date` column produces the error
output with nothing rendered. -/
theorem claim_C9_load_failure_witness :
    appRun badCsv (2014, 2028) ChartType.rawData true =
      Except.ok { errorMsg := some "Error loading data", stats := none, view := none } :=
  (claim_C9_load_failure badCsv (2014, 2028) ChartType.rawData true (by decide)).1

/-- Claim C1 (refuted — the code crashes): on a table whose
`inflation_rate` is entirely null, `df["Inflation Rate"].max()` is NaN, the
selection `df[df["Inflation Rate"] == NaN]` is empty (nothing compares equal
to NaN), and `.values[0]` raises `IndexError`; a zero-row upload crashes
even earlier, at `int(df['Year'].min())`.  The metrics do NOT degrade to a
"no data" indication. -/
theorem claim_C1_all_null_crash :
    load_data c1Csv = some c1Table ∧
    computeStats c1Table =
      Except.error "IndexError: index 0 is out of bounds for axis 0 with size 0" ∧
    appRun c1Csv (2014, 2028) ChartType.lineCharts true =
      Except.error "IndexError: index 0 is out of bounds for axis 0 with size 0" ∧
    appRun [inputCols] (2014, 2028) ChartType.lineCharts true =
      Except.error "ValueError: cannot convert float NaN to integer" :=
  ⟨by decide, rfl, rfl, rfl⟩

/-- Claim C3: with at least one non-null `inflation_rate`, the stats succeed;
`max_inflation_value` bounds every non-null rate from above and
`min_inflation_value` from below, both are attained, each date card shows
the first attaining row's date in "Month Year" form, and `avg_forecast`
is the arithmetic mean of the non-null forecasts of the entire unfiltered
table (the value whose product with the count gives the sum). -/
theorem claim_C3_metrics (df : List Row) (h : ∃ r ∈ df, r.inflationRate.isSome = true) :
    ∃ s, computeStats df = Except.ok s ∧
      (∀ r ∈ df, ∀ q : ℚ, r.inflationRate = some q →
        q ≤ s.max_inflation_value ∧ s.min_inflation_value ≤ q) ∧
      (∃ r ∈ df, r.inflationRate = some s.max_inflation_value) ∧
      (∃ r ∈ df, r.inflationRate = some s.min_inflation_value) ∧
      (∃ r0, df.find? (fun r => decide (r.inflationRate = some s.max_inflation_value)) = some r0 ∧
        s.max_inflation_date = formatMonthYear r0.date) ∧
      (∃ r1, df.find? (fun r => decide (r.inflationRate = some s.min_inflation_value)) = some r1 ∧
        s.min_inflation_date = formatMonthYear r1.date) ∧
      ((∃ r ∈ df, r.forecastInflation.isSome = true) →
        ∃ a, s.avg_forecast = some a ∧
          a * (((df.map (fun r => r.forecastInflation)).reduceOption.length : ℕ) : ℚ) =
            ((df.map (fun r => r.forecastInflation)).reduceOption).sum) := by
  obtain ⟨r, hr, hsome⟩ := h
  obtain ⟨q, hq⟩ := Option.isSome_iff_exists.mp hsome
  have hmem : some q ∈ df.map (fun r => r.inflationRate) :=
    List.mem_map.mpr ⟨r, hr, hq⟩
  obtain ⟨mv, hmax⟩ := seriesMax_isSome hmem
  obtain ⟨nv, hmin⟩ := seriesMin_isSome hmem
  obtain ⟨rmax, hrmax, hrateMax⟩ := List.mem_map.mp (seriesMax_mem hmax)
  obtain ⟨rmin, hrmin, hrateMin⟩ := List.mem_map.mp (seriesMin_mem hmin)
  have hfmax : ∃ r0, df.find? (fun r => decide (r.inflationRate = some mv)) = some r0 := by
    rw [← Option.isSome_iff_exists, List.find?_isSome]
    exact ⟨rmax, hrmax, by simp [hrateMax]⟩
  have hfmin : ∃ r1, df.find? (fun r => decide (r.inflationRate = some nv)) = some r1 := by
    rw [← Option.isSome_iff_exists, List.find?_isSome]
    exact ⟨rmin, hrmin, by simp [hrateMin]⟩
  obtain ⟨r0, hr0⟩ := hfmax
  obtain ⟨r1, hr1⟩ := hfmin
  have hstats : computeStats df = Except.ok
      { max_inflation_value := mv, min_inflation_value := nv,
        max_inflation_date := formatMonthYear r0.date,
        min_inflation_date := formatMonthYear r1.date,
        avg_forecast := seriesMean (df.map (fun r => r.forecastInflation)) } := by
    simp only [computeStats, hmax, hmin, head?_filter, hr0, hr1]
  refine ⟨_, hstats, ?_, ⟨rmax, hrmax, hrateMax⟩, ⟨rmin, hrmin, hrateMin⟩,
    ⟨r0, hr0, rfl⟩, ⟨r1, hr1, rfl⟩, ?_⟩
  · intro r' hr' q' hq'
    have hmem' : some q' ∈ df.map (fun r => r.inflationRate) :=
      List.mem_map.mpr ⟨r', hr', hq'⟩
    exact ⟨seriesMax_le hmax q' hmem', seriesMin_le hmin q' hmem'⟩
  · rintro ⟨rf, hrf, hfs⟩
    obtain ⟨w, hw⟩ := Option.isSome_iff_exists.mp hfs
    have hwmem : w ∈ (df.map (fun r => r.forecastInflation)).reduceOption := by
      rw [List.reduceOption_mem_iff]
      exact List.mem_map.mpr ⟨rf, hrf, hw⟩
    have hlen : (df.map (fun r => r.forecastInflation)).reduceOption.length ≠ 0 :=
      Nat.pos_iff_ne_zero.mp (List.length_pos.mpr (List.ne_nil_of_mem hwmem))
    have hlenQ : (((df.map (fun r => r.forecastInflation)).reduceOption.length : ℕ) : ℚ) ≠ 0 := by
      exact_mod_cast hlen
    refine ⟨((df.map (fun r => r.forecastInflation)).reduceOption.sum) /
      (((df.map (fun r => r.forecastInflation)).reduceOption.length : ℕ) : ℚ), ?_, ?_⟩
    · simp only [seriesMean]
      rw [if_neg hlen]
    · exact div_mul_cancel₀ _ hlenQ

/-- Witness for C3: on the demonstration table, whose `Inflation Rate`
column has non-null entries, the summary stats succeed (no `IndexError`). -/
theorem claim_C3_metrics_witness : (computeStats demoTable).isOk = true := by
  obtain ⟨s, hok, _⟩ := claim_C3_metrics demoTable (by decide)
  rw [hok]
  rfl

/-- Claim C4: the forecast-start marker is absent exactly when no row has a
null `inflation_rate`; when present it is the chronologically least date
among the null-rate rows of the unfiltered table; and it does not depend on
the selected year filter. -/
theorem claim_C4_forecast_start (df : List Row) (y0 y1 y0' y1' : ℕ) :
    ((lineChartsView df (filtered_df df y0 y1)).marker = none ↔
      ∀ r ∈ df, r.inflationRate ≠ none) ∧
    (∀ d, (lineChartsView df (filtered_df df y0 y1)).marker = some d →
      (∃ r ∈ df, r.inflationRate = none ∧ r.date = d) ∧
      ∀ r ∈ df, r.inflationRate = none → dateLE d r.date = true) ∧
    (lineChartsView df (filtered_df df y0 y1)).marker =
      (lineChartsView df (filtered_df df y0' y1')).marker := by
  refine ⟨?_, ?_, rfl⟩
  · show forecast_start df = none ↔ _
    constructor
    · intro hn r hr hnull
      have hempty := dateMin_eq_none hn
      rw [List.map_eq_nil_iff, List.filter_eq_nil_iff] at hempty
      exact hempty r hr (by simp [hnull])
    · intro hall
      have : df.filter (fun r => r.inflationRate.isNone) = [] := by
        rw [List.filter_eq_nil_iff]
        intro r hr
        simp only [Option.isNone_iff_eq_none]
        exact hall r hr
      rw [forecast_start, this]
      rfl
  · intro d hd
    have hd' : dateMin ((df.filter (fun r => r.inflationRate.isNone)).map
        (fun r => r.date)) = some d := hd
    constructor
    · obtain ⟨r, hrmem, hrdate⟩ := List.mem_map.mp (dateMin_mem hd')
      rw [List.mem_filter] at hrmem
      exact ⟨r, hrmem.1, Option.isNone_iff_eq_none.mp hrmem.2, hrdate⟩
    · intro r hr hnull
      refine dateMin_le hd' r.date (List.mem_map.mpr ⟨r, ?_, rfl⟩)
      rw [List.mem_filter]
      exact ⟨hr, by simp [hnull]⟩

theorem parseDate_bounds {s : String} {d : Date} (h : parseDate s = some d) :
    1 ≤ d.month ∧ d.month ≤ 12 ∧ 1 ≤ d.day ∧ d.day ≤ 31 := by
  rw [parseDate] at h
  split at h
  · split at h
    · split at h
      · cases h
        next hcond => exact hcond
      · exact Option.noConfusion h
    · exact Option.noConfusion h
  · exact Option.noConfusion h

theorem loadRow_spec {di ri fi oi : ℕ} {cells : List String} {r : Row}
    (h : loadRow di ri fi oi cells = some r) :
    r.year = r.date.year ∧ 1 ≤ r.date.month ∧ r.date.month ≤ 12 ∧
    1 ≤ r.date.day ∧ r.date.day ≤ 31 ∧
    r.month = monthAbbrev r.date.month ∧
    r.inflationCombined = coalesce r.inflationRate r.forecastInflation := by
  rw [loadRow] at h
  split at h
  · split at h
    · next d rt fc oc hpd hpr hpf hpo =>
      cases h
      obtain ⟨h1, h2, h3, h4⟩ := parseDate_bounds hpd
      exact ⟨rfl, h1, h2, h3, h4, rfl, rfl⟩
    · exact Option.noConfusion h
  · exact Option.noConfusion h

theorem loadRows_mem {di ri fi oi : ℕ} {rows : List (List String)} {df : List Row}
    (h : loadRows di ri fi oi rows = some df) {r : Row} (hr : r ∈ df) :
    ∃ cells ∈ rows, loadRow di ri fi oi cells = some r := by
  induction rows generalizing df with
  | nil =>
    rw [loadRows] at h
    cases h
    simp at hr
  | cons c cs ih =>
    rw [loadRows] at h
    cases hc : loadRow di ri fi oi c with
    | none => rw [hc] at h; simp [consRows] at h
    | some row =>
      cases hcs : loadRows di ri fi oi cs with
      | none => rw [hc, hcs] at h; simp [consRows] at h
      | some rows' =>
        rw [hc, hcs] at h
        simp only [consRows] at h
        cases h
        rcases List.mem_cons.mp hr with hr | hr
        · exact ⟨c, List.mem_cons_self _ _, hr ▸ hc⟩
        · obtain ⟨cells, hmem, hcell⟩ := ih hcs hr
          exact ⟨cells, List.mem_cons_of_mem _ hmem, hcell⟩

theorem load_data_mem {csv : List (List String)} {df : List Row}
    (h : load_data csv = some df) {r : Row} (hr : r ∈ df) :
    ∃ di ri fi oi cells, loadRow di ri fi oi cells = some r := by
  cases csv with
  | nil => rw [load_data] at h; exact Option.noConfusion h
  | cons header rows =>
    rw [load_data] at h
    split at h
    · next di ri fi oi _ _ _ _ =>
      obtain ⟨cells, _, hcell⟩ := loadRows_mem h hr
      exact ⟨di, ri, fi, oi, cells, hcell⟩
    · exact Option.noConfusion h

theorem monthAbbrev_canonical {m : ℕ} (h1 : 1 ≤ m) (h2 : m ≤ 12) :
    all_months[m - 1]? = some (monthAbbrev m) := by
  interval_cases m <;> rfl

/-- Claim C2: every row of a successfully loaded table has `year` equal to
the calendar year of its date, `month` equal to the canonical three-letter
token of its date's month (the entry of the canonical month list), and
`inflation_combined` the null-coalescing of `inflation_rate` with
`forecast_inflation`: the rate when non-null, else the forecast (null only
when both are). -/
theorem claim_C2_load_derives (csv : List (List String)) (df : List Row)
    (h : load_data csv = some df) :
    ∀ r ∈ df,
      r.year = r.date.year ∧
      all_months[r.date.month - 1]? = some r.month ∧
      (∀ q : ℚ, r.inflationRate = some q → r.inflationCombined = some q) ∧
      (r.inflationRate = none → r.inflationCombined = r.forecastInflation) := by
  intro r hr
  obtain ⟨di, ri, fi, oi, cells, hcell⟩ := load_data_mem h hr
  obtain ⟨hyear, hm1, hm2, _, _, hmonth, hcomb⟩ := loadRow_spec hcell
  refine ⟨hyear, ?_, ?_, ?_⟩
  · rw [hmonth]
    exact monthAbbrev_canonical hm1 hm2
  · intro q hq
    rw [hcomb, hq]
    rfl
  · intro hq
    rw [hcomb, hq]
    rfl

/-- Witness for C2 at the concrete forecast-only row of the demonstration
upload: year and month token are derived from its date, and its combined
value falls back to the forecast because the rate is null. -/
theorem claim_C2_load_derives_witness :
    demoRowJan.year = demoRowJan.date.year ∧
    all_months[demoRowJan.date.month - 1]? = some demoRowJan.month ∧
    demoRowJan.inflationCombined = demoRowJan.forecastInflation := by
  have h := claim_C2_load_derives demoCsv demoTable (by decide) demoRowJan (by decide)
  exact ⟨h.1, h.2.1, h.2.2.2 (by decide)⟩

/-- Claim C10: the raw-data export serializes the augmented filtered table:
its header is the four input columns followed by the derived `Year`,
`Month` and `Inflation_Combined` columns, and every exported data row has
seven cells whose last three are the rendered derived fields. -/
theorem claim_C10_export_derived_cols (csv : List (List String)) (df : List Row)
    (h : load_data csv = some df) (y0 y1 : ℕ) :
    (rawDataView (filtered_df df y0 y1)).content =
      csvHeader :: (filtered_df df y0 y1).map rowToCells ∧
    csvHeader = inputCols ++ ["Year", "Month", "Inflation_Combined"] ∧
    ∀ r ∈ filtered_df df y0 y1,
      (rowToCells r).length = 7 ∧
      (rowToCells r)[4]? = some (natStr r.date.year) ∧
      (rowToCells r)[5]? = some (monthAbbrev r.date.month) ∧
      (rowToCells r)[6]? = some (renderOpt (coalesce r.inflationRate r.forecastInflation)) := by
  refine ⟨rfl, rfl, ?_⟩
  intro r hrf
  have hr : r ∈ df := List.mem_of_mem_filter hrf
  obtain ⟨di, ri, fi, oi, cells, hcell⟩ := load_data_mem h hr
  obtain ⟨hyear, _, _, _, _, hmonth, hcomb⟩ := loadRow_spec hcell
  refine ⟨rfl, ?_, ?_, ?_⟩
  · show some (natStr r.year) = some (natStr r.date.year)
    rw [hyear]
  · show some r.month = some (monthAbbrev r.date.month)
    rw [hmonth]
  · show some (renderOpt r.inflationCombined) = _
    rw [hcomb]

/-- Witness for C10: in the export of the demonstration table filtered to
2024, the concrete December row's cells carry the derived columns. -/
theorem claim_C10_export_derived_cols_witness :
    csvHeader = inputCols ++ ["Year", "Month", "Inflation_Combined"] ∧
    (rowToCells demoRowDec).length = 7 ∧
    (rowToCells demoRowDec)[4]? = some (natStr demoRowDec.date.year) ∧
    (rowToCells demoRowDec)[5]? = some (monthAbbrev demoRowDec.date.month) ∧
    (rowToCells demoRowDec)[6]? =
      some (renderOpt (coalesce demoRowDec.inflationRate demoRowDec.forecastInflation)) := by
  have h := claim_C10_export_derived_cols demoCsv demoTable (by decide) 2024 2024
  exact ⟨h.2.1, h.2.2 demoRowDec (by decide)⟩

theorem str_data_append (s t : String) : (s ++ t).data = s.data ++ t.data := rfl

theorem natRenderChars_lt_ten (x : ℕ) (h : x < 10) :
    ∃ c, natRenderChars x = [c] := by
  interval_cases x <;> exact ⟨_, rfl⟩

theorem fmt1_one_decimal (q : ℚ) : ∃ pre d, (fmt1 q).data = pre ++ ['.', d] := by
  rw [fmt1]
  by_cases h : round (q * 10) < 0
  · rw [if_pos h]
    obtain ⟨c, hc⟩ := natRenderChars_lt_ten ((-round (q * 10)).toNat % 10)
      (Nat.mod_lt _ (by norm_num))
    refine ⟨("-" ++ natStr ((-round (q * 10)).toNat / 10)).data, c, ?_⟩
    rw [str_data_append, str_data_append]
    rw [show (natStr ((-round (q * 10)).toNat % 10)).data = [c] from hc]
    rw [List.append_assoc]
    rfl
  · rw [if_neg h]
    obtain ⟨c, hc⟩ := natRenderChars_lt_ten ((round (q * 10)).toNat % 10)
      (Nat.mod_lt _ (by norm_num))
    refine ⟨(natStr ((round (q * 10)).toNat / 10)).data, c, ?_⟩
    rw [str_data_append, str_data_append]
    rw [show (natStr ((round (q * 10)).toNat % 10)).data = [c] from hc]
    rw [List.append_assoc]
    rfl

theorem fmt1_zero : fmt1 0 = "0.0" := by
  have hz : round ((0 : ℚ) * 10) = 0 := by
    rw [zero_mul, round_zero]
  rw [fmt1, hz]
  decide

/-- Claim C7: heatmap mode pivots the filtered table into a
`month_abbrev` × `year` grid whose rows are the twelve months in fixed
canonical order; the cell of a (month, year) pair holds the
`inflation_combined` value of its (unique) matching row; a pair absent from
the filtered table is a blank cell (annotation text empty — not the
rendering of zero, which is `"0.0"`); and every annotation has exactly one
digit after the decimal point. -/
theorem claim_C7_heatmap (f : List Row) (m : String) (y : ℕ) :
    (heatmapView f).rowLabels = all_months ∧
    ((∀ r ∈ f, ¬(r.month = m ∧ r.year = y)) →
      (heatmapView f).cell m y = none ∧ (heatmapView f).cellText m y = "") ∧
    (∀ r (v : ℚ), f.filter (fun r => decide (r.month = m) && decide (r.year = y)) = [r] →
      r.inflationCombined = some v →
      (heatmapView f).cell m y = some v ∧ (heatmapView f).cellText m y = fmt1 v) ∧
    ((heatmapView f).cellText m y = "" ∨
      ∃ pre d, ((heatmapView f).cellText m y).data = pre ++ ['.', d]) ∧
    fmt1 0 = "0.0" := by
  refine ⟨rfl, ?_, ?_, ?_, fmt1_zero⟩
  · intro habsent
    have hfil : f.filter (fun r => decide (r.month = m) && decide (r.year = y)) = [] := by
      rw [List.filter_eq_nil_iff]
      intro r hr
      simp only [Bool.and_eq_true, decide_eq_true_eq, not_and]
      intro h1 h2
      exact habsent r hr ⟨h1, h2⟩
    have hcell : (heatmapView f).cell m y = none := by
      show pivotCell f m y = none
      rw [pivotCell, hfil]
      rfl
    refine ⟨hcell, ?_⟩
    show (match pivotCell f m y with | none => "" | some v => fmt1 v) = ""
    rw [show pivotCell f m y = none from hcell]
  · intro r v hfil hval
    have hcell : (heatmapView f).cell m y = some v := by
      show pivotCell f m y = some v
      rw [pivotCell, hfil]
      simp only [List.map_cons, List.map_nil]
      rw [hval]
      show seriesMean [some v] = some v
      simp [seriesMean, List.reduceOption]
    refine ⟨hcell, ?_⟩
    show (match pivotCell f m y with | none => "" | some v => fmt1 v) = fmt1 v
    rw [show pivotCell f m y = some v from hcell]
  · cases hcell : pivotCell f m y with
    | none =>
      left
      show (match pivotCell f m y with | none => "" | some v => fmt1 v) = ""
      rw [hcell]
    | some v =>
      right
      have : (heatmapView f).cellText m y = fmt1 v := by
        show (match pivotCell f m y with | none => "" | some v => fmt1 v) = fmt1 v
        rw [hcell]
      rw [this]
      exact fmt1_one_decimal v

theorem natDigitsAux_eq (fuel : ℕ) : ∀ n : ℕ, n ≤ fuel →
    natDigitsAux fuel n = Nat.digits 10 n := by
  induction fuel with
  | zero =>
    intro n hn
    interval_cases n
    simp [natDigitsAux]
  | succ fuel ih =>
    intro n hn
    cases n with
    | zero => simp [natDigitsAux]
    | succ m =>
      rw [natDigitsAux]
      rw [Nat.digits_def' (by norm_num : (1:ℕ) < 10) (Nat.succ_pos m)]
      have hdiv : (m + 1) / 10 ≤ fuel := by
        have := Nat.div_lt_self (Nat.succ_pos m) (by norm_num : 1 < 10)
        omega
      rw [ih _ hdiv]

theorem natDigitsLE_eq (n : ℕ) : natDigitsLE n = Nat.digits 10 n :=
  natDigitsAux_eq n n le_rfl

theorem charVal_digitChar {d : ℕ} (h : d < 10) :
    charVal (Nat.digitChar d) = d := by
  interval_cases d <;> rfl

theorem digitChar_is_digit {d : ℕ} (h : d < 10) :
    isDigitChar (Nat.digitChar d) = true ∧
      Nat.digitChar d ≠ '-' ∧ Nat.digitChar d ≠ '.' := by
  interval_cases d <;> exact ⟨rfl, by decide, by decide⟩

theorem natRenderChars_prop (n : ℕ) :
    ∀ c ∈ natRenderChars n, isDigitChar c = true ∧ c ≠ '-' ∧ c ≠ '.' := by
  intro c hc
  rw [natRenderChars] at hc
  by_cases hn : n = 0
  · rw [if_pos hn] at hc
    simp only [List.mem_singleton] at hc
    subst hc
    exact ⟨rfl, by decide, by decide⟩
  · rw [if_neg hn] at hc
    obtain ⟨d, hd, hdc⟩ := List.mem_map.mp hc
    rw [List.mem_reverse, natDigitsLE_eq] at hd
    exact hdc ▸ digitChar_is_digit (Nat.digits_lt_base (by norm_num) hd)

theorem natRenderChars_ne_nil (n : ℕ) : natRenderChars n ≠ [] := by
  rw [natRenderChars]
  by_cases hn : n = 0
  · rw [if_pos hn]; simp
  · rw [if_neg hn]
    simp only [ne_eq, List.map_eq_nil_iff, List.reverse_eq_nil_iff, natDigitsLE_eq]
    exact Nat.digits_ne_nil_iff_ne_zero.mpr hn

theorem foldl_digitChars (L : List ℕ) (hL : ∀ d ∈ L, d < 10) : ∀ acc : ℕ,
    (L.map Nat.digitChar).foldl (fun a c => a * 10 + charVal c) acc =
      L.foldl (fun a d => a * 10 + d) acc := by
  induction L with
  | nil => intro acc; rfl
  | cons d T ih =>
    intro acc
    simp only [List.map_cons, List.foldl_cons]
    rw [charVal_digitChar (hL d (List.mem_cons_self _ _))]
    exact ih (fun x hx => hL x (List.mem_cons_of_mem _ hx)) _

theorem foldl_eq_ofDigits (L : List ℕ) : ∀ acc : ℕ,
    L.foldl (fun a d => a * 10 + d) acc =
      acc * 10 ^ L.length + Nat.ofDigits 10 L.reverse := by
  induction L with
  | nil => intro acc; simp [Nat.ofDigits]
  | cons d T ih =>
    intro acc
    simp only [List.foldl_cons, List.reverse_cons, List.length_cons]
    rw [ih, Nat.ofDigits_append, Nat.ofDigits_singleton, List.length_reverse]
    ring

theorem foldl_render (n : ℕ) :
    (natRenderChars n).foldl (fun a c => a * 10 + charVal c) 0 = n := by
  rw [natRenderChars]
  by_cases hn : n = 0
  · rw [if_pos hn]; subst hn; rfl
  · rw [if_neg hn]
    have hlt : ∀ d ∈ (natDigitsLE n).reverse, d < 10 := by
      intro d hd
      rw [List.mem_reverse, natDigitsLE_eq] at hd
      exact Nat.digits_lt_base (by norm_num) hd
    rw [foldl_digitChars _ hlt, foldl_eq_ofDigits, List.reverse_reverse,
      natDigitsLE_eq, Nat.ofDigits_digits]
    simp

theorem parseNatChars_render (n : ℕ) :
    parseNatChars (natRenderChars n) = some n := by
  have hcond : natRenderChars n ≠ [] ∧ (natRenderChars n).all isDigitChar = true := by
    refine ⟨natRenderChars_ne_nil n, ?_⟩
    rw [List.all_eq_true]
    intro c hc
    exact (natRenderChars_prop n c hc).1
  rw [parseNatChars, if_pos hcond, foldl_render]

theorem foldl_zeros (j : ℕ) :
    (List.replicate j '0').foldl (fun a c => a * 10 + charVal c) 0 = 0 := by
  induction j with
  | zero => rfl
  | succ j ih =>
    simp only [List.replicate_succ, List.foldl_cons]
    exact ih

theorem parseNatChars_pad (k f : ℕ) :
    parseNatChars (padRender k f) = some f := by
  have hcond : padRender k f ≠ [] ∧ (padRender k f).all isDigitChar = true := by
    constructor
    · intro hc
      exact natRenderChars_ne_nil f (List.append_eq_nil.mp hc).2
    · rw [List.all_eq_true]
      intro c hc
      rcases List.mem_append.mp hc with hc | hc
      · rw [List.eq_of_mem_replicate hc]; rfl
      · exact (natRenderChars_prop f c hc).1
  rw [padRender] at hcond ⊢
  rw [parseNatChars, if_pos hcond, List.foldl_append, foldl_zeros, foldl_render]

theorem padRender_prop (k f : ℕ) : ∀ c ∈ padRender k f, c ≠ '-' ∧ c ≠ '.' := by
  intro c hc
  rcases List.mem_append.mp hc with hc | hc
  · rw [List.eq_of_mem_replicate hc]
    exact ⟨by decide, by decide⟩
  · exact (natRenderChars_prop f c hc).2

theorem natRenderChars_length_le {f k : ℕ} (hf : f < 10 ^ k) (hk : 1 ≤ k) :
    (natRenderChars f).length ≤ k := by
  rw [natRenderChars]
  by_cases hz : f = 0
  · rw [if_pos hz]; simpa using hk
  · rw [if_neg hz, List.length_map, List.length_reverse, natDigitsLE_eq]
    rw [Nat.digits_len 10 f (by norm_num) hz]
    have := Nat.log_lt_of_lt_pow hz hf
    omega

theorem padRender_length {f k : ℕ} (hf : f < 10 ^ k) (hk : 1 ≤ k) :
    (padRender k f).length = k := by
  rw [padRender, List.length_append, List.length_replicate]
  have := natRenderChars_length_le hf hk
  omega

theorem splitOnChar_of_not_mem {sep : Char} {cs : List Char} (h : sep ∉ cs) :
    splitOnChar sep cs = [cs] := by
  induction cs with
  | nil => rfl
  | cons c cs ih =>
    have hne : ¬(c = sep) := fun hc => h (List.mem_cons.mpr (Or.inl hc.symm))
    rw [splitOnChar, if_neg hne, ih (fun hm => h (List.mem_cons_of_mem _ hm)),
      consHead]

theorem splitOnChar_append {sep : Char} {a : List Char} (b : List Char)
    (h : sep ∉ a) :
    splitOnChar sep (a ++ sep :: b) = a :: splitOnChar sep b := by
  induction a with
  | nil =>
    simp only [List.nil_append]
    rw [splitOnChar, if_pos rfl]
  | cons c a' ih =>
    have hne : ¬(c = sep) := fun hc => h (List.mem_cons.mpr (Or.inl hc.symm))
    simp only [List.cons_append]
    rw [splitOnChar, if_neg hne, ih (fun hm => h (List.mem_cons_of_mem _ hm)),
      consHead]

theorem pMultAux_le {p : ℕ} (hp : 2 ≤ p) : ∀ (fuel n j : ℕ), n ≤ fuel →
    0 < n → p ^ j ∣ n → j ≤ pMultAux fuel p n := by
  intro fuel
  induction fuel with
  | zero => intro n j h1 h2 _; omega
  | succ fuel ih =>
    intro n j hle hpos hdvd
    cases j with
    | zero => exact Nat.zero_le _
    | succ j =>
      have hpd : p ∣ n := dvd_trans (dvd_pow_self p (Nat.succ_ne_zero j)) hdvd
      have hmod : n % p = 0 := Nat.mod_eq_zero_of_dvd hpd
      rw [pMultAux, if_pos ⟨hp, hpos, hmod⟩]
      obtain ⟨t, ht⟩ := hdvd
      have hquot : p ^ j ∣ n / p := by
        refine ⟨t, ?_⟩
        have harr : p ^ (j + 1) * t = p * (p ^ j * t) := by ring
        rw [ht, harr, Nat.mul_div_cancel_left _ (by omega : 0 < p)]
      have hq_pos : 0 < n / p := Nat.div_pos (Nat.le_of_dvd hpos hpd) (by omega)
      have hq_le : n / p ≤ fuel := by
        have := Nat.div_lt_self hpos (by omega : 1 < p)
        omega
      have := ih (n / p) j hq_le hq_pos hquot
      omega

theorem pMult_le {p n j : ℕ} (hp : 2 ≤ p) (hn : 0 < n) (h : p ^ j ∣ n) :
    j ≤ pMult p n := pMultAux_le hp n n j le_rfl hn h

theorem decScale_dvd {q : ℚ} (h : ∃ j, q.den ∣ 10 ^ j) :
    q.den ∣ 10 ^ decScale q := by
  obtain ⟨j, hj⟩ := h
  rw [show (10:ℕ) ^ j = 2 ^ j * 5 ^ j by rw [← Nat.mul_pow]] at hj
  obtain ⟨d1, d2, hd1, hd2, hprod⟩ := Nat.dvd_mul.mp hj
  obtain ⟨x, _, hx⟩ := (Nat.dvd_prime_pow Nat.prime_two).mp hd1
  obtain ⟨y, _, hy⟩ := (Nat.dvd_prime_pow Nat.prime_five).mp hd2
  have hden : q.den = 2 ^ x * 5 ^ y := by rw [← hprod, hx, hy]
  have hxle : x ≤ pMult 2 q.den :=
    pMult_le (by norm_num) q.den_pos ⟨5 ^ y, by rw [hden]⟩
  have hyle : y ≤ pMult 5 q.den :=
    pMult_le (by norm_num) q.den_pos ⟨2 ^ x, by rw [hden]; ring⟩
  have h2 : (2:ℕ) ^ x ∣ 2 ^ decScale q :=
    pow_dvd_pow 2 (le_trans hxle (by rw [decScale]; omega))
  have h5 : (5:ℕ) ^ y ∣ 5 ^ decScale q :=
    pow_dvd_pow 5 (le_trans hyle (by rw [decScale]; omega))
  rw [hden, show (10:ℕ) ^ decScale q = 2 ^ decScale q * 5 ^ decScale q by
    rw [← Nat.mul_pow]]
  exact mul_dvd_mul h2 h5

theorem scaleNum_eq {q : ℚ} {k : ℕ} (hq : 0 ≤ q) (hd : q.den ∣ 10 ^ k) :
    ((scaleNum q k : ℕ) : ℚ) = q * 10 ^ k := by
  rw [scaleNum, Nat.cast_mul,
    Nat.cast_div hd (Nat.cast_ne_zero.mpr (Nat.pos_iff_ne_zero.mp q.den_pos))]
  have hnum : ((q.num.toNat : ℕ) : ℚ) = (q.num : ℚ) := by
    rw [show ((q.num.toNat : ℕ) : ℚ) = ((q.num.toNat : ℤ) : ℚ) by push_cast; ring]
    rw [Int.toNat_of_nonneg (Rat.num_nonneg.mpr hq)]
  rw [hnum, show (((10:ℕ) ^ k : ℕ) : ℚ) = (10:ℚ) ^ k by push_cast; ring]
  rw [show q * (10:ℚ) ^ k = (q.num : ℚ) / (q.den : ℚ) * 10 ^ k by
    rw [Rat.num_div_den]]
  field_simp

theorem renderPosDec_round {q : ℚ} (hq : 0 ≤ q) (hdec : ∃ j, q.den ∣ 10 ^ j) :
    parsePosDec (renderPosDec q) = some q := by
  have hdvd := decScale_dvd hdec
  have hk1 : 1 ≤ decScale q := by rw [decScale]; omega
  have hpow : 0 < 10 ^ decScale q := pow_pos (by norm_num) _
  rw [renderPosDec, if_pos hdvd]
  have hsplit : splitOnChar '.'
      (natRenderChars (scaleNum q (decScale q) / 10 ^ decScale q) ++
        '.' :: padRender (decScale q) (scaleNum q (decScale q) % 10 ^ decScale q)) =
      [natRenderChars (scaleNum q (decScale q) / 10 ^ decScale q),
       padRender (decScale q) (scaleNum q (decScale q) % 10 ^ decScale q)] := by
    rw [splitOnChar_append _ (fun hm => ((natRenderChars_prop _ _ hm).2.2 rfl)),
      splitOnChar_of_not_mem (fun hm => ((padRender_prop _ _ _ hm).2 rfl))]
  simp only [parsePosDec, hsplit, parseNatChars_render, parseNatChars_pad]
  rw [padRender_length (Nat.mod_lt _ hpow) hk1]
  have hdm : scaleNum q (decScale q) / 10 ^ decScale q * 10 ^ decScale q +
      scaleNum q (decScale q) % 10 ^ decScale q = scaleNum q (decScale q) := by
    rw [mul_comm]
    exact Nat.div_add_mod _ _
  rw [hdm, Rat.divInt_eq_div]
  have hs := scaleNum_eq hq hdvd
  rw [show ((((scaleNum q (decScale q) : ℕ) : ℤ)) : ℚ) =
      ((scaleNum q (decScale q) : ℕ) : ℚ) by push_cast; ring]
  rw [show ((((10:ℕ) ^ decScale q : ℕ) : ℤ) : ℚ) = (10:ℚ) ^ decScale q by
    push_cast; ring]
  rw [hs, mul_div_cancel_right₀ _ (by positivity : ((10:ℚ) ^ decScale q) ≠ 0)]

theorem renderDecChars_ne_nil (q : ℚ) : renderDecChars q ≠ [] := by
  rw [renderDecChars]
  by_cases h : q < 0
  · rw [if_pos h]; simp
  · rw [if_neg h, renderPosDec]
    by_cases hd : q.den ∣ 10 ^ decScale q
    · rw [if_pos hd]
      intro hc
      exact natRenderChars_ne_nil _ (List.append_eq_nil.mp hc).1
    · rw [if_neg hd]; simp

theorem parseDecChars_render {q : ℚ} (hdec : ∃ j, q.den ∣ 10 ^ j) :
    parseDecChars (renderDecChars q) = some q := by
  rw [renderDecChars]
  by_cases h : q < 0
  · rw [if_pos h, parseDecChars]
    rw [if_pos (show (('-' :: renderPosDec (-q)).head? = some '-') from rfl)]
    simp only [List.tail_cons]
    rw [renderPosDec_round (by linarith : (0:ℚ) ≤ -q)
      (by rw [Rat.neg_den]; exact hdec)]
    simp
  · rw [if_neg h, parseDecChars]
    have hhead : ¬((renderPosDec q).head? = some '-') := by
      rw [renderPosDec]
      by_cases hd : q.den ∣ 10 ^ decScale q
      · rw [if_pos hd]
        cases hnr : natRenderChars (scaleNum q (decScale q) / 10 ^ decScale q) with
        | nil => exact absurd hnr (natRenderChars_ne_nil _)
        | cons c cs =>
          simp only [List.cons_append, List.head?_cons, Option.some.injEq]
          intro hc
          exact (natRenderChars_prop _ c (hnr ▸ List.mem_cons_self c cs)).2.1 hc
      · rw [if_neg hd]; decide
    rw [if_neg hhead]
    exact renderPosDec_round (le_of_not_lt h) hdec

theorem parseField_renderOpt {o : Option ℚ} (h : DecimalVal o) :
    parseField (renderOpt o) = some o := by
  cases o with
  | none => rfl
  | some q =>
    rw [renderOpt, parseField]
    rw [if_neg (show ¬((String.mk (renderDecChars q)).data = []) from
      renderDecChars_ne_nil q)]
    rw [show (String.mk (renderDecChars q)).data = renderDecChars q from rfl]
    rw [parseDecChars_render (h q rfl)]

theorem parseDate_renderDate {d : Date} (h1 : 1 ≤ d.month) (h2 : d.month ≤ 12)
    (h3 : 1 ≤ d.day) (h4 : d.day ≤ 31) :
    parseDate (renderDate d) = some d := by
  have hsplit : splitOnChar '-' (renderDate d).data =
      [padRender 4 d.year, padRender 2 d.month, padRender 2 d.day] := by
    rw [show (renderDate d).data = padRender 4 d.year ++
      '-' :: (padRender 2 d.month ++ '-' :: padRender 2 d.day) from rfl]
    rw [splitOnChar_append _ (fun hm => (padRender_prop _ _ _ hm).1 rfl),
      splitOnChar_append _ (fun hm => (padRender_prop _ _ _ hm).1 rfl),
      splitOnChar_of_not_mem (fun hm => (padRender_prop _ _ _ hm).1 rfl)]
  rw [parseDate]
  simp only [hsplit, parseNatChars_pad]
  rw [if_pos ⟨h1, h2, h3, h4⟩]

theorem parsePosDec_decimal {cs : List Char} {q : ℚ}
    (h : parsePosDec cs = some q) : ∃ j, q.den ∣ 10 ^ j := by
  rw [parsePosDec] at h
  split at h
  · split at h
    · cases h
      exact ⟨0, by rw [Rat.den_natCast]; simp⟩
    · exact Option.noConfusion h
  · next ip fp heq =>
    split at h
    · next n f hn hf =>
      cases h
      refine ⟨fp.length, ?_⟩
      have := Rat.den_dvd ((n * 10 ^ fp.length + f : ℕ) : ℤ)
        ((10 ^ fp.length : ℕ) : ℤ)
      rwa [Int.natCast_dvd_natCast] at this
    · exact Option.noConfusion h
  · exact Option.noConfusion h

theorem parseDecChars_decimal {cs : List Char} {q : ℚ}
    (h : parseDecChars cs = some q) : ∃ j, q.den ∣ 10 ^ j := by
  rw [parseDecChars] at h
  split at h
  · split at h
    · next w hw =>
      cases h
      obtain ⟨j, hj⟩ := parsePosDec_decimal hw
      exact ⟨j, by rwa [Rat.neg_den]⟩
    · exact Option.noConfusion h
  · exact parsePosDec_decimal h

theorem parseField_decimal {s : String} {o : Option ℚ}
    (h : parseField s = some o) : DecimalVal o := by
  rw [parseField] at h
  split at h
  · cases h
    intro q hq
    exact Option.noConfusion hq
  · split at h
    · next w hw =>
      cases h
      intro q hq
      cases Option.some.inj hq
      exact parseDecChars_decimal hw
    · exact Option.noConfusion h

theorem loadRow_wf {di ri fi oi : ℕ} {cells : List String} {r : Row}
    (h : loadRow di ri fi oi cells = some r) : RowWF r := by
  rw [loadRow] at h
  split at h
  · split at h
    · next d rt fc oc hpd hpr hpf hpo =>
      cases h
      obtain ⟨h1, h2, h3, h4⟩ := parseDate_bounds hpd
      have dr := parseField_decimal hpr
      have dfc := parseField_decimal hpf
      have doc := parseField_decimal hpo
      refine ⟨h1, h2, h3, h4, dr, dfc, doc, ?_⟩
      cases rt with
      | some v => exact fun q hq => dr q hq
      | none => exact fun q hq => dfc q hq
    · exact Option.noConfusion h
  · exact Option.noConfusion h

theorem load_data_wf {csv : List (List String)} {df : List Row}
    (h : load_data csv = some df) : ∀ r ∈ df, RowWF r := by
  intro r hr
  obtain ⟨di, ri, fi, oi, cells, hcell⟩ := load_data_mem h hr
  exact loadRow_wf hcell

theorem parseRowCells_rowToCells {r : Row} (h : RowWF r) :
    parseRowCells (rowToCells r) = some r := by
  obtain ⟨h1, h2, h3, h4, hr, hf, ho, hc⟩ := h
  simp only [rowToCells, parseRowCells, parseDate_renderDate h1 h2 h3 h4,
    parseField_renderOpt hr, parseField_renderOpt hf, parseField_renderOpt ho,
    parseField_renderOpt hc,
    show (natStr r.year).data = natRenderChars r.year from rfl,
    parseNatChars_render]

theorem parseRows_round {l : List Row} (h : ∀ r ∈ l, RowWF r) :
    parseRows (l.map rowToCells) = some l := by
  induction l with
  | nil => rfl
  | cons r t ih =>
    simp only [List.map_cons, parseRows]
    rw [parseRowCells_rowToCells (h r (List.mem_cons_self _ _)),
      ih (fun x hx => h x (List.mem_cons_of_mem _ hx))]
    rfl

/-- Claim C8: raw-data mode exports exactly the filtered row subset as a CSV
with no index column (the header is exactly the seven data columns) under
the fixed filename `filtered_inflation.csv` and MIME `text/csv`, and
re-parsing the exported CSV yields exactly the filtered row set. -/
theorem claim_C8_export_round_trip (csv : List (List String)) (df : List Row)
    (h : load_data csv = some df) (y0 y1 : ℕ) :
    (rawDataView (filtered_df df y0 y1)).filename = "filtered_inflation.csv" ∧
    (rawDataView (filtered_df df y0 y1)).mime = "text/csv" ∧
    (rawDataView (filtered_df df y0 y1)).content =
      csvHeader :: (filtered_df df y0 y1).map rowToCells ∧
    parseCsv ((rawDataView (filtered_df df y0 y1)).content) =
      some (filtered_df df y0 y1) := by
  refine ⟨rfl, rfl, rfl, ?_⟩
  show parseCsv (to_csv (filtered_df df y0 y1)) = some (filtered_df df y0 y1)
  rw [to_csv, parseCsv, if_pos rfl]
  exact parseRows_round
    (fun r hr => load_data_wf h r (List.mem_of_mem_filter hr))

/-- Witness for C8: the demonstration upload exports under the fixed
filename and round-trips through the CSV reader. -/
theorem claim_C8_export_round_trip_witness :
    (rawDataView (filtered_df demoTable 2014 2028)).filename =
      "filtered_inflation.csv" ∧
    parseCsv ((rawDataView (filtered_df demoTable 2014 2028)).content) =
      some (filtered_df demoTable 2014 2028) := by
  have h := claim_C8_export_round_trip demoCsv demoTable (by decide) 2014 2028
  exact ⟨h.1, h.2.2.2⟩

/-- Witness for C7 at the demonstration table: the absent (Feb, 2024) pair
is a blank cell, while the unique (Dec, 2024) row gives its combined value
annotated with one decimal place. -/
theorem claim_C7_heatmap_witness :
    (heatmapView demoTable).cell "Feb" 2024 = none ∧
    (heatmapView demoTable).cellText "Feb" 2024 = "" ∧
    (heatmapView demoTable).cell "Dec" 2024 = some (Rat.divInt 11 2) ∧
    (heatmapView demoTable).cellText "Dec" 2024 = fmt1 (Rat.divInt 11 2) := by
  have h1 := (claim_C7_heatmap demoTable "Feb" 2024).2.1 (by decide)
  have h2 := (claim_C7_heatmap demoTable "Dec" 2024).2.2.1
    demoRowDec (Rat.divInt 11 2) (by decide) (by decide)
  exact ⟨h1.1, h1.2, h2.1, h2.2⟩

/-- Witness for C4 at the demonstration table: the marker agrees across two
different year filters, and the marker date is a lower bound for the
concrete forecast row's date. -/
theorem claim_C4_forecast_start_witness :
    (lineChartsView demoTable (filtered_df demoTable 2024 2024)).marker =
      (lineChartsView demoTable (filtered_df demoTable 2025 2028)).marker ∧
    dateLE ⟨2025, 1, 1⟩ demoRowJan.date = true := by
  have h := claim_C4_forecast_start demoTable 2024 2024 2025 2028
  exact ⟨h.2.2, (h.2.1 ⟨2025, 1, 1⟩ (by decide)).2 demoRowJan (by decide) (by decide)⟩

end Inflation
